import Mathlib

/-!
Verification of the tic-tac-toe backend's coordination core against its
natural-language specification.

The development shallowly embeds the Go sources:
* `internal/game/logic.go` — the pure turn engine (`GameState`, `ApplyMove`,
  `CheckWin`);
* `internal/room/room.go`  — the per-session state machine (`Room.Run`'s
  `Register`, `Unregister` and `ReceiveMove` cases, the empty-room grace
  timer, and the deferred cleanup);
* `internal/hub/hub.go`    — the registry (`Hub.Run`'s `CreateRoomChan`,
  `JoinRoomChan` and `DeleteRoomChan` cases).

Go maps keyed by client objects are modelled as lists of connection ids
(ids are unique per live connection object), and Go's in-place mutation of
`GameState` is modelled by explicit state passing: `ApplyMove` returns the
new state together with an optional rejection, mirroring the fact that the
Go function returns before any mutation on every rejection path.
Channel sends are modelled as emitted `(recipient, message)` lists.
-/

namespace TicTacToe

/-- Board mirrors Go's `type Board [3][3]string`: a 3×3 grid of strings,
empty string meaning an unmarked cell. -/
def Board := Fin 3 → Fin 3 → String

instance : DecidableEq Board := by unfold Board; infer_instance

/-- The empty board, Go's zero value `Board{}`. -/
def emptyBoard : Board := fun _ _ => ""

/-- Functional update of one cell, modelling `gs.Board[row][col] = playerSymbol`. -/
def boardSet (b : Board) (i j : Fin 3) (s : String) : Board :=
  fun i' j' => if i' = i ∧ j' = j then s else b i' j'

/-- GameState mirrors the Go struct of the same name in `logic.go`.
`playerSymbols` models the Go map `map[string]string` from client id to
symbol as an association list with unique keys. -/
structure GameState where
  board : Board
  currentTurnSymbol : String
  playerSymbols : List (String × String)
  winner : String
  isGameOver : Bool
  isDraw : Bool
deriving DecidableEq

/-- NewGameState from `logic.go`: empty board, X begins, no players, no
winner, not over, not a draw. -/
def NewGameState : GameState :=
  { board := emptyBoard
    currentTurnSymbol := "X"
    playerSymbols := []
    winner := ""
    isGameOver := false
    isDraw := false }

/-- The draw scan of `CheckWin`: `isDraw` is true iff no cell is empty. -/
def allFilled (b : Board) : Bool :=
  (b 0 0 != "") && (b 0 1 != "") && (b 0 2 != "") &&
  (b 1 0 != "") && (b 1 1 != "") && (b 1 2 != "") &&
  (b 2 0 != "") && (b 2 1 != "") && (b 2 2 != "")

/-- CheckWin from `logic.go`: rows in order, then columns, then the main
diagonal, then the anti-diagonal; if no line matches, report whether the
board is full (draw). Returns `(winnerSymbol, isDraw)`. The Go source's
local copy `board := gs.Board` is inlined. -/
def CheckWin (gs : GameState) : String × Bool :=
  if gs.board 0 0 ≠ "" ∧ gs.board 0 0 = gs.board 0 1 ∧ gs.board 0 1 = gs.board 0 2 then
    (gs.board 0 0, false)
  else if gs.board 1 0 ≠ "" ∧ gs.board 1 0 = gs.board 1 1 ∧ gs.board 1 1 = gs.board 1 2 then
    (gs.board 1 0, false)
  else if gs.board 2 0 ≠ "" ∧ gs.board 2 0 = gs.board 2 1 ∧ gs.board 2 1 = gs.board 2 2 then
    (gs.board 2 0, false)
  else if gs.board 0 0 ≠ "" ∧ gs.board 0 0 = gs.board 1 0 ∧ gs.board 1 0 = gs.board 2 0 then
    (gs.board 0 0, false)
  else if gs.board 0 1 ≠ "" ∧ gs.board 0 1 = gs.board 1 1 ∧ gs.board 1 1 = gs.board 2 1 then
    (gs.board 0 1, false)
  else if gs.board 0 2 ≠ "" ∧ gs.board 0 2 = gs.board 1 2 ∧ gs.board 1 2 = gs.board 2 2 then
    (gs.board 0 2, false)
  else if gs.board 0 0 ≠ "" ∧ gs.board 0 0 = gs.board 1 1 ∧ gs.board 1 1 = gs.board 2 2 then
    (gs.board 0 0, false)
  else if gs.board 0 2 ≠ "" ∧ gs.board 0 2 = gs.board 1 1 ∧ gs.board 1 1 = gs.board 2 0 then
    (gs.board 0 2, false)
  else ("", allFilled gs.board)

/-- Rejection reasons of `ApplyMove`, one per early-return branch of the Go
function (each carries a distinct error message in the source). -/
inductive MoveError where
  | gameOver
  | wrongTurn
  | outOfBounds
  | cellOccupied
deriving DecidableEq

/-- ApplyMove from `logic.go`. The Go function mutates `gs` through a
pointer and returns an `error`; here it returns the post-state together
with an optional rejection. Every rejection branch of the source returns
before any mutation, so rejections leave the state unchanged. -/
def ApplyMove (gs : GameState) (playerSymbol : String) (row col : Int) :
    GameState × Option MoveError :=
  if gs.isGameOver then (gs, some .gameOver)
  else if gs.currentTurnSymbol ≠ playerSymbol then (gs, some .wrongTurn)
  else if h : row < 0 ∨ 2 < row ∨ col < 0 ∨ 2 < col then (gs, some .outOfBounds)
  else
    let i : Fin 3 := ⟨row.toNat, by omega⟩
    let j : Fin 3 := ⟨col.toNat, by omega⟩
    if gs.board i j ≠ "" then (gs, some .cellOccupied)
    else
      let board' := boardSet gs.board i j playerSymbol
      let cw := CheckWin { gs with board := board' }
      if cw.1 ≠ "" then
        ({ gs with board := board', winner := cw.1, isGameOver := true }, none)
      else if cw.2 then
        ({ gs with board := board', isDraw := true, isGameOver := true }, none)
      else
        ({ gs with
            board := board'
            currentTurnSymbol := if gs.currentTurnSymbol = "X" then "O" else "X" }, none)

/-- Reference predicate, written from the specification's words: some row,
column, or diagonal holds three identical non-empty marks `m`. -/
def lineWin (b : Board) (m : String) : Prop :=
  m ≠ "" ∧
  ((b 0 0 = m ∧ b 0 1 = m ∧ b 0 2 = m) ∨
   (b 1 0 = m ∧ b 1 1 = m ∧ b 1 2 = m) ∨
   (b 2 0 = m ∧ b 2 1 = m ∧ b 2 2 = m) ∨
   (b 0 0 = m ∧ b 1 0 = m ∧ b 2 0 = m) ∨
   (b 0 1 = m ∧ b 1 1 = m ∧ b 2 1 = m) ∨
   (b 0 2 = m ∧ b 1 2 = m ∧ b 2 2 = m) ∨
   (b 0 0 = m ∧ b 1 1 = m ∧ b 2 2 = m) ∨
   (b 0 2 = m ∧ b 1 1 = m ∧ b 2 0 = m))

/-- Reference predicate, written from the specification's words: all 9
cells are filled. -/
def boardFull (b : Board) : Prop :=
  b 0 0 ≠ "" ∧ b 0 1 ≠ "" ∧ b 0 2 ≠ "" ∧
  b 1 0 ≠ "" ∧ b 1 1 ≠ "" ∧ b 1 2 ≠ "" ∧
  b 2 0 ≠ "" ∧ b 2 1 ≠ "" ∧ b 2 2 ≠ ""

lemma allFilled_iff (b : Board) : allFilled b = true ↔ boardFull b := by
  simp [allFilled, boardFull, Bool.and_eq_true, bne_iff_ne, and_assoc]

/-- If `CheckWin` reports a winner, that winner has a complete line. -/
lemma checkWin_winner (gs : GameState) (h : (CheckWin gs).1 ≠ "") :
    lineWin gs.board (CheckWin gs).1 := by
  unfold CheckWin at *
  split_ifs at * with h1 h2 h3 h4 h5 h6 h7 h8
  · exact ⟨h1.1, .inl ⟨rfl, h1.2.1.symm, (h1.2.1.trans h1.2.2).symm⟩⟩
  · exact ⟨h2.1, .inr (.inl ⟨rfl, h2.2.1.symm, (h2.2.1.trans h2.2.2).symm⟩)⟩
  · exact ⟨h3.1, .inr (.inr (.inl ⟨rfl, h3.2.1.symm, (h3.2.1.trans h3.2.2).symm⟩))⟩
  · exact ⟨h4.1, .inr (.inr (.inr (.inl ⟨rfl, h4.2.1.symm, (h4.2.1.trans h4.2.2).symm⟩)))⟩
  · exact ⟨h5.1, .inr (.inr (.inr (.inr (.inl ⟨rfl, h5.2.1.symm, (h5.2.1.trans h5.2.2).symm⟩))))⟩
  · exact ⟨h6.1, .inr (.inr (.inr (.inr (.inr (.inl ⟨rfl, h6.2.1.symm, (h6.2.1.trans h6.2.2).symm⟩)))))⟩
  · exact ⟨h7.1, .inr (.inr (.inr (.inr (.inr (.inr (.inl ⟨rfl, h7.2.1.symm, (h7.2.1.trans h7.2.2).symm⟩))))))⟩
  · exact ⟨h8.1, .inr (.inr (.inr (.inr (.inr (.inr (.inr ⟨rfl, h8.2.1.symm, (h8.2.1.trans h8.2.2).symm⟩))))))⟩
  · exact absurd rfl h

/-- If `CheckWin` reports no winner, no mark has a complete line. -/
lemma checkWin_no_winner (gs : GameState) (h : (CheckWin gs).1 = "") :
    ∀ m, ¬ lineWin gs.board m := by
  intro m hm
  unfold CheckWin at h
  split_ifs at h with h1 h2 h3 h4 h5 h6 h7 h8
  · exact h1.1 h
  · exact h2.1 h
  · exact h3.1 h
  · exact h4.1 h
  · exact h5.1 h
  · exact h6.1 h
  · exact h7.1 h
  · exact h8.1 h
  · rcases hm with ⟨hne, hl | hl | hl | hl | hl | hl | hl | hl⟩
    · exact h1 ⟨hl.1 ▸ hne, hl.1.trans hl.2.1.symm, hl.2.1.trans hl.2.2.symm⟩
    · exact h2 ⟨hl.1 ▸ hne, hl.1.trans hl.2.1.symm, hl.2.1.trans hl.2.2.symm⟩
    · exact h3 ⟨hl.1 ▸ hne, hl.1.trans hl.2.1.symm, hl.2.1.trans hl.2.2.symm⟩
    · exact h4 ⟨hl.1 ▸ hne, hl.1.trans hl.2.1.symm, hl.2.1.trans hl.2.2.symm⟩
    · exact h5 ⟨hl.1 ▸ hne, hl.1.trans hl.2.1.symm, hl.2.1.trans hl.2.2.symm⟩
    · exact h6 ⟨hl.1 ▸ hne, hl.1.trans hl.2.1.symm, hl.2.1.trans hl.2.2.symm⟩
    · exact h7 ⟨hl.1 ▸ hne, hl.1.trans hl.2.1.symm, hl.2.1.trans hl.2.2.symm⟩
    · exact h8 ⟨hl.1 ▸ hne, hl.1.trans hl.2.1.symm, hl.2.1.trans hl.2.2.symm⟩

/-- When no line matches, the second component of `CheckWin` is the draw
flag: true exactly when the board is full. -/
lemma checkWin_draw (gs : GameState) (h : (CheckWin gs).1 = "") :
    ((CheckWin gs).2 = true ↔ boardFull gs.board) := by
  unfold CheckWin at *
  split_ifs at * with h1 h2 h3 h4 h5 h6 h7 h8
  · exact absurd h h1.1
  · exact absurd h h2.1
  · exact absurd h h3.1
  · exact absurd h h4.1
  · exact absurd h h5.1
  · exact absurd h h6.1
  · exact absurd h h7.1
  · exact absurd h h8.1
  · exact allFilled_iff gs.board

lemma boardSet_self (b : Board) (i j : Fin 3) (s : String) :
    boardSet b i j s i j = s := by
  simp [boardSet]

/-- Reference post-state relation for an accepted move, written from the
specification's words: the target cell holds the mover's mark; if some
row, column, or diagonal holds three identical non-empty marks the game
is won by that mark (win taking priority over draw); otherwise if all 9
cells are filled the game is a draw; otherwise the game is not terminal
and whose-turn is the mark opposite the mover's. -/
def RefPost (gs gs' : GameState) (sym : String) (row col : Int) : Prop :=
  (∃ (hi : row.toNat < 3) (hj : col.toNat < 3),
      gs'.board = boardSet gs.board ⟨row.toNat, hi⟩ ⟨col.toNat, hj⟩ sym ∧
      gs'.board ⟨row.toNat, hi⟩ ⟨col.toNat, hj⟩ = sym) ∧
  ((∃ m, lineWin gs'.board m) →
      gs'.isGameOver = true ∧ gs'.winner ≠ "" ∧ lineWin gs'.board gs'.winner) ∧
  ((¬ ∃ m, lineWin gs'.board m) → boardFull gs'.board →
      gs'.isGameOver = true ∧ gs'.isDraw = true) ∧
  ((¬ ∃ m, lineWin gs'.board m) → ¬ boardFull gs'.board →
      gs'.isGameOver = false ∧
      gs'.currentTurnSymbol = (if sym = "X" then "O" else "X"))

/-- C1: for every game state, mark, row and column, if `ApplyMove` accepts
the move then the post-state satisfies the reference definition `RefPost`:
the target cell holds the mover's mark; a completed row, column or
diagonal of identical non-empty marks means the game is won by that mark;
otherwise a full board means a draw; otherwise the game is not terminal
and whose-turn is the mark opposite the mover's. -/
theorem applyMove_matches_reference (gs gs' : GameState) (sym : String) (row col : Int)
    (h : ApplyMove gs sym row col = (gs', none)) :
    RefPost gs gs' sym row col := by
  simp only [ApplyMove] at h
  split_ifs at h with hgo hturn hbounds hcell hwin hdraw hX
  · exact absurd h (by simp)
  · exact absurd h (by simp)
  · exact absurd h (by simp)
  · exact absurd h (by simp)
  · -- winner branch
    rw [Prod.mk.injEq] at h
    obtain ⟨hgs, -⟩ := h
    subst hgs
    have hrow : row.toNat < 3 := by omega
    have hcol : col.toNat < 3 := by omega
    have hline := checkWin_winner _ hwin
    refine ⟨⟨hrow, hcol, rfl, boardSet_self _ _ _ _⟩, ?_, ?_, ?_⟩
    · exact fun _ => ⟨rfl, hwin, hline⟩
    · exact fun hno _ => absurd ⟨_, hline⟩ hno
    · exact fun hno _ => absurd ⟨_, hline⟩ hno
  · -- draw branch
    rw [Prod.mk.injEq] at h
    obtain ⟨hgs, -⟩ := h
    subst hgs
    have hrow : row.toNat < 3 := by omega
    have hcol : col.toNat < 3 := by omega
    push_neg at hwin
    refine ⟨⟨hrow, hcol, rfl, boardSet_self _ _ _ _⟩, ?_, ?_, ?_⟩
    · intro ⟨m, hm⟩
      exact absurd hm (checkWin_no_winner _ hwin m)
    · exact fun _ _ => ⟨rfl, rfl⟩
    · intro _ hnf
      exact absurd ((checkWin_draw _ hwin).mp hdraw) hnf
  · -- turn-flip branch, current turn is X
    rw [Prod.mk.injEq] at h
    obtain ⟨hgs, -⟩ := h
    subst hgs
    have hrow : row.toNat < 3 := by omega
    have hcol : col.toNat < 3 := by omega
    push_neg at hwin
    have hsym : sym = "X" := (not_not.mp hturn).symm.trans hX
    refine ⟨⟨hrow, hcol, rfl, boardSet_self _ _ _ _⟩, ?_, ?_, ?_⟩
    · intro ⟨m, hm⟩
      exact absurd hm (checkWin_no_winner _ hwin m)
    · intro _ hfull
      have hd : (CheckWin _).2 = true := (checkWin_draw _ hwin).mpr hfull
      exact absurd hd (by simpa using hdraw)
    · intro _ _
      exact ⟨by simpa using hgo, by rw [if_pos hsym]⟩
  · -- turn-flip branch, current turn is not X
    rw [Prod.mk.injEq] at h
    obtain ⟨hgs, -⟩ := h
    subst hgs
    have hrow : row.toNat < 3 := by omega
    have hcol : col.toNat < 3 := by omega
    push_neg at hwin
    have hsym : sym ≠ "X" := fun hs => hX ((not_not.mp hturn).trans hs)
    refine ⟨⟨hrow, hcol, rfl, boardSet_self _ _ _ _⟩, ?_, ?_, ?_⟩
    · intro ⟨m, hm⟩
      exact absurd hm (checkWin_no_winner _ hwin m)
    · intro _ hfull
      have hd : (CheckWin _).2 = true := (checkWin_draw _ hwin).mpr hfull
      exact absurd hd (by simpa using hdraw)
    · intro _ _
      exact ⟨by simpa using hgo, by rw [if_neg hsym]⟩

/-- C1 witness: X's opening move at (0,0) from the initial state is
accepted and its post-state satisfies the reference definition. -/
theorem applyMove_matches_reference_witness :
    RefPost NewGameState ((ApplyMove NewGameState "X" 0 0).1) "X" 0 0 :=
  applyMove_matches_reference NewGameState _ "X" 0 0 (by decide)

/-- Total cell accessor for integer coordinates: the cell when `(row,col)`
is inside the 3×3 bounds, the empty string otherwise. -/
def boardAt (b : Board) (row col : Int) : String :=
  if h : row < 0 ∨ 2 < row ∨ col < 0 ∨ 2 < col then ""
  else b ⟨row.toNat, by omega⟩ ⟨col.toNat, by omega⟩

lemma boardAt_inBounds (b : Board) (row col : Int)
    (h : ¬(row < 0 ∨ 2 < row ∨ col < 0 ∨ 2 < col))
    (hi : row.toNat < 3) (hj : col.toNat < 3) :
    boardAt b row col = b ⟨row.toNat, hi⟩ ⟨col.toNat, hj⟩ := by
  unfold boardAt
  rw [dif_neg h]

/-- Reference rejection order, written from the claim: game already
terminal is rejected as game-over; then a mark that is not the current
turn's mark as wrong-turn; then coordinates outside the 3×3 bounds as
out-of-bounds; then an already-marked target cell as cell-occupied. -/
def firstRejection (gs : GameState) (sym : String) (row col : Int) : Option MoveError :=
  if gs.isGameOver then some .gameOver
  else if gs.currentTurnSymbol ≠ sym then some .wrongTurn
  else if row < 0 ∨ 2 < row ∨ col < 0 ∨ 2 < col then some .outOfBounds
  else if boardAt gs.board row col ≠ "" then some .cellOccupied
  else none

/-- C2: `ApplyMove` checks its preconditions in the fixed order game-over,
wrong-turn, out-of-bounds, cell-occupied — its rejection is exactly
`firstRejection` — and every rejection leaves the game state unchanged. -/
theorem applyMove_rejection_order (gs : GameState) (sym : String) (row col : Int) :
    (ApplyMove gs sym row col).2 = firstRejection gs sym row col ∧
    ((ApplyMove gs sym row col).2 ≠ none → (ApplyMove gs sym row col).1 = gs) := by
  by_cases hgo : gs.isGameOver = true
  · simp [ApplyMove, firstRejection, hgo]
  by_cases hturn : gs.currentTurnSymbol ≠ sym
  · simp [ApplyMove, firstRejection, hgo, hturn]
  by_cases hbounds : row < 0 ∨ 2 < row ∨ col < 0 ∨ 2 < col
  · simp [ApplyMove, firstRejection, hgo, hturn, hbounds]
  have hi : row.toNat < 3 := by omega
  have hj : col.toNat < 3 := by omega
  by_cases hcell : gs.board ⟨row.toNat, hi⟩ ⟨col.toNat, hj⟩ ≠ ""
  · have hcellA : boardAt gs.board row col ≠ "" := by
      rwa [boardAt_inBounds gs.board row col hbounds hi hj]
    simp only [ApplyMove, firstRejection]
    rw [if_neg hgo, if_neg hgo, if_neg hturn, if_neg hturn,
      dif_neg hbounds, if_neg hbounds, if_pos hcell, if_pos hcellA]
    exact ⟨rfl, fun _ => rfl⟩
  · have hcellA : ¬ boardAt gs.board row col ≠ "" := by
      rwa [boardAt_inBounds gs.board row col hbounds hi hj]
    simp only [ApplyMove, firstRejection]
    rw [if_neg hgo, if_neg hgo, if_neg hturn, if_neg hturn,
      dif_neg hbounds, if_neg hbounds, if_neg hcell, if_neg hcellA]
    refine ⟨?_, fun hne => absurd ?_ hne⟩ <;> split_ifs <;> rfl

/-- C2 witness: a concrete rejected move — O attempts to move first — is
rejected as wrong-turn, in order, with the state unchanged. -/
theorem applyMove_rejection_order_witness :
    ((ApplyMove NewGameState "O" 0 0).2 = firstRejection NewGameState "O" 0 0 ∧
      ((ApplyMove NewGameState "O" 0 0).2 ≠ none →
        (ApplyMove NewGameState "O" 0 0).1 = NewGameState)) ∧
    firstRejection NewGameState "O" 0 0 = some .wrongTurn :=
  ⟨applyMove_rejection_order NewGameState "O" 0 0, by decide⟩

/-! ## Session (Room) and Registry (Hub) embedding

Clients are identified by their connection id. Channel sends are modelled
as emitted `(recipient id, message)` pairs, in the order the source
attempts them. -/

/-- Error code for a full room, `errors.go`. -/
def ErrorRoomFull : String := "ERROR_ROOM_FULL"

/-- Error code for an unknown room, `errors.go`. -/
def ErrorRoomNotFound : String := "ERROR_ROOM_NOT_FOUND"

/-- Error code for a mover with no role in the game, `errors.go`. -/
def ErrorNotInGame : String := "ERROR_NOT_IN_GAME"

/-- Error code for a move out of turn, `errors.go`. -/
def ErrorNotYourTurn : String := "ERROR_NOT_YOUR_TURN"

/-- Error code for a move the engine rejects, `errors.go`. -/
def ErrorInvalidMove : String := "ERROR_INVALID_MOVE"

/-- Server-to-client messages, one constructor per Go response struct the
room and hub serialize. The payload fields mirror the JSON fields the
source fills in. -/
inductive Msg where
  | roomCreated (roomId playerId symbol : String)
  | waitingForOpponent (roomId playerId symbol : String)
  | roomJoined (roomId playerId symbol : String) (gameState : Option Board)
  | playerJoined (playerId : String)
  | playerReconnected (playerId : String)
  | playerLeft (playerId : String)
  | gameStart (board : Board) (currentTurn : String) (players : List (String × String))
  | gameUpdate (board : Board) (currentTurn : String) (lastRow lastCol : Int)
  | gameOver (board : Board) (winner : String) (isDraw : Bool)
  | roomClosed
  | errMsg (code : String)
deriving DecidableEq

/-- Wire `type` field of each message, exactly the strings the source
puts in the `Type` field (error responses carry their code as the type). -/
def Msg.msgType : Msg → String
  | .roomCreated _ _ _ => "ROOM_CREATED"
  | .waitingForOpponent _ _ _ => "WAITING_FOR_OPPONENT"
  | .roomJoined _ _ _ _ => "ROOM_JOINED"
  | .playerJoined _ => "PLAYER_JOINED"
  | .playerReconnected _ => "PLAYER_RECONNECTED"
  | .playerLeft _ => "PLAYER_LEFT"
  | .gameStart _ _ _ => "GAME_START"
  | .gameUpdate _ _ _ _ => "GAME_UPDATE"
  | .gameOver _ _ _ => "GAME_OVER"
  | .roomClosed => "ROOM_CLOSED"
  | .errMsg code => code

/-- Go map assignment `m[k] = v` on an association list: replace the value
at the first occurrence of `k`, or append. -/
def insertA : List (String × String) → String → String → List (String × String)
  | [], k, v => [(k, v)]
  | (a, b) :: t, k, v => if a = k then (k, v) :: t else (a, b) :: insertA t k v

/-- Go map deletion `delete(m, k)` on an association list. -/
def eraseA (l : List (String × String)) (k : String) : List (String × String) :=
  l.filter (fun p => p.1 ≠ k)

/-- Room mirrors the Go `Room` struct fields the state machine reads: its
id, the set of member connection ids (`Clients`, keyed here by id), and
the game state. -/
structure RoomState where
  id : String
  clients : List String
  gameState : GameState
deriving DecidableEq

/-- NewRoom from `room.go`: no members, fresh game state. -/
def newRoom (id : String) : RoomState :=
  { id := id, clients := [], gameState := NewGameState }

/-- Register case of `Room.Run` (`room.go`). Reconnection is recognised by
the id already holding a symbol; a reconnection into a two-symbol game is
re-sent its room/game state and skips the normal flow, otherwise the
normal flow runs: a third concurrent member is rejected with room-full, a
first member gets symbol X and waits, a second member gets the opposite
symbol and the game starts. Returns the new state and the emitted
messages. -/
def registerClient (r : RoomState) (cid : String) : RoomState × List (String × Msg) :=
  let gs := r.gameState
  let isReconnecting := (List.lookup cid gs.playerSymbols).isSome
  let reconnectSymbol := (List.lookup cid gs.playerSymbols).getD ""
  let clients' := if cid ∈ r.clients then r.clients else r.clients ++ [cid]
  let gs1 := if isReconnecting then
      { gs with playerSymbols := insertA gs.playerSymbols cid reconnectSymbol }
    else gs
  let recMsgs : List (String × Msg) := if isReconnecting then
      [(cid, Msg.roomJoined r.id cid reconnectSymbol (some gs.board))]
    else []
  if isReconnecting ∧ gs.playerSymbols.length = 2 then
    (⟨r.id, clients', gs1⟩,
      recMsgs ++
        [(cid, Msg.gameStart gs.board gs.currentTurnSymbol gs.playerSymbols),
         (cid, Msg.gameUpdate gs.board gs.currentTurnSymbol 0 0)] ++
        (clients'.filter (fun c => c ≠ cid)).map (fun c => (c, Msg.playerReconnected cid)))
  else
    let playerCount := clients'.length
    if 2 < playerCount then
      (⟨r.id, clients'.erase cid, gs1⟩, recMsgs ++ [(cid, Msg.errMsg ErrorRoomFull)])
    else if playerCount = 1 ∨ gs1.playerSymbols.length = 0 then
      (⟨r.id, clients', { gs1 with playerSymbols := [(cid, "X")] }⟩,
        recMsgs ++ [(cid, Msg.waitingForOpponent r.id cid "X")])
    else if playerCount = 2 then
      match clients'.find? (fun c => c ≠ cid) with
      | some firstPlayer =>
        let firstSym := (List.lookup firstPlayer gs1.playerSymbols).getD ""
        let symbol := if firstSym = "X" then "O" else "X"
        let gs2 := { gs1 with
          playerSymbols := insertA gs1.playerSymbols cid symbol
          currentTurnSymbol := "X" }
        (⟨r.id, clients', gs2⟩,
          recMsgs ++
            [(firstPlayer, Msg.playerJoined cid),
             (cid, Msg.roomJoined r.id cid symbol none)] ++
            clients'.map (fun c => (c, Msg.gameStart gs2.board "X" gs2.playerSymbols)))
      | none => (⟨r.id, clients', gs1⟩, recMsgs)
    else
      (⟨r.id, clients', gs1⟩, recMsgs)

/-- Unregister case of `Room.Run` (`room.go`): a member's departure removes
it from the member set, deletes its symbol, notifies each remaining member
with player-left and a game-over crediting that member, and — when the
room becomes empty — starts the grace timer (the returned flag). -/
def unregisterClient (r : RoomState) (cid : String) :
    RoomState × List (String × Msg) × Bool :=
  if cid ∈ r.clients then
    let clients' := r.clients.erase cid
    let gs' := { r.gameState with playerSymbols := eraseA r.gameState.playerSymbols cid }
    let msgs := if clients' = [] then []
      else clients'.flatMap (fun c =>
        [(c, Msg.playerLeft cid), (c, Msg.gameOver r.gameState.board c false)])
    (⟨r.id, clients', gs'⟩, msgs, clients'.isEmpty)
  else (r, [], false)

/-- ReceiveMove case of `Room.Run` (`room.go`): a mover with no symbol gets
not-in-game; a mover out of turn gets not-your-turn; an engine rejection
gets invalid-move (each error only to the requester, state unchanged); an
accepted move broadcasts a game-update to every member and, if the game
ended, a game-over (winner id resolved from the winner symbol) to every
member plus a room-deletion request (the returned flag). -/
def receiveMove (r : RoomState) (cid : String) (row col : Int) :
    RoomState × List (String × Msg) × Bool :=
  match List.lookup cid r.gameState.playerSymbols with
  | none => (r, [(cid, Msg.errMsg ErrorNotInGame)], false)
  | some sym =>
    if r.gameState.currentTurnSymbol ≠ sym then
      (r, [(cid, Msg.errMsg ErrorNotYourTurn)], false)
    else
      let res := ApplyMove r.gameState sym row col
      match res.2 with
      | some _ => (r, [(cid, Msg.errMsg ErrorInvalidMove)], false)
      | none =>
        let gs' := res.1
        let updates := r.clients.map (fun c =>
          (c, Msg.gameUpdate gs'.board gs'.currentTurnSymbol row col))
        if gs'.isGameOver then
          let winner := if gs'.winner ≠ "" then
              ((gs'.playerSymbols.find? (fun p => p.2 = gs'.winner)).map Prod.fst).getD ""
            else ""
          let isDraw := gs'.winner = ""
          (⟨r.id, r.clients, gs'⟩,
            updates ++ r.clients.map (fun c => (c, Msg.gameOver gs'.board winner isDraw)),
            true)
        else
          (⟨r.id, r.clients, gs'⟩, updates, false)

/-- Deferred cleanup of `Room.Run` (`room.go`): when the loop terminates,
every remaining member is sent room-closed. -/
def roomCleanup (r : RoomState) : List (String × Msg) :=
  r.clients.map (fun c => (c, Msg.roomClosed))

/-- Grace-timer fire (`room.go`, Unregister case): the goroutine re-reads
the occupancy when the timer elapses and requests room deletion only if
the room is still empty. -/
def timerFire (r : RoomState) : Option String :=
  if r.clients.isEmpty then some r.id else none

/-- Hub mirrors the Go `Hub` struct fields the registry reads: the live
connection ids, the directory of live rooms, and — modelled from the spec,
see `createRoom` — the configured maximum number of concurrent rooms. -/
structure HubState where
  clients : List String
  rooms : List (String × RoomState)
  maxRooms : Nat
deriving DecidableEq

/-- Functional update of one room in the directory (the Go map holds a
pointer, so the room's mutation is visible in the directory). -/
def updateRoom (rooms : List (String × RoomState)) (id : String) (r : RoomState) :
    List (String × RoomState) :=
  rooms.map (fun p => if p.1 = id then (id, r) else p)

/-- Error code for the session-capacity rejection. Modelled from the spec:
the spec requires "a capacity error" without fixing its code string. -/
def ErrorCapacity : String := "ERROR_CAPACITY"

/-- CreateRoomChan case of `Hub.Run` (`hub.go`) composed with the room's
registration of the creator: a fresh room is recorded, the creator is
registered in it, and the creator is also sent room-created with symbol X.
The capacity guard is modelled from the spec ("Rejected with a capacity
error if the configured maximum concurrent sessions is reached"): the
`SetLimits` method that `cmd/server/main.go` calls to configure the
maximum is absent from the sources, so its enforcement is taken from the
spec's words. -/
def createRoom (h : HubState) (cid newRoomId : String) : HubState × List (String × Msg) :=
  if h.maxRooms ≤ h.rooms.length then
    (h, [(cid, Msg.errMsg ErrorCapacity)])
  else
    let reg := registerClient (newRoom newRoomId) cid
    ({ h with rooms := h.rooms ++ [(newRoomId, reg.1)] },
      reg.2 ++ [(cid, Msg.roomCreated newRoomId cid "X")])

/-- JoinRoomChan case of `Hub.Run` (`hub.go`) composed with the room's
registration: an unknown room id is rejected with room-not-found; a room
that already holds 2 clients is rejected with room-full (before the room
ever sees the join); otherwise the client is registered in the room. -/
def joinRoom (h : HubState) (roomId cid : String) : HubState × List (String × Msg) :=
  match List.lookup roomId h.rooms with
  | none => (h, [(cid, Msg.errMsg ErrorRoomNotFound)])
  | some r =>
    if 2 ≤ r.clients.length then
      (h, [(cid, Msg.errMsg ErrorRoomFull)])
    else
      let reg := registerClient r cid
      ({ h with rooms := updateRoom h.rooms roomId reg.1 }, reg.2)

/-- DeleteRoomChan case of `Hub.Run` (`hub.go`): a known room id is closed
(its context cancelled — the returned flag) and removed from the
directory; an unknown id is a no-op. -/
def deleteRoom (h : HubState) (roomId : String) : HubState × Bool :=
  if (List.lookup roomId h.rooms).isSome then
    ({ h with rooms := h.rooms.filter (fun p => p.1 ≠ roomId) }, true)
  else (h, false)

/-- Grace-timer fire at the registry level: the timer goroutine re-reads
the room's occupancy and forwards a deletion request only when the room is
still empty. -/
def hubTimerFire (h : HubState) (r : RoomState) : HubState :=
  match timerFire r with
  | none => h
  | some roomId => (deleteRoom h roomId).1

/-! ## Association-list lemmas -/

lemma lookup_eraseA (l : List (String × String)) (k : String) :
    List.lookup k (eraseA l k) = none := by
  induction l with
  | nil => rfl
  | cons p t ih =>
    rcases p with ⟨a, b⟩
    by_cases ha : a = k
    · have hf : ¬((fun p => decide (p.1 ≠ k)) (a, b) = true) := by simp [ha]
      rw [eraseA, List.filter_cons, if_neg hf]
      exact ih
    · have hf : ((fun p => decide (p.1 ≠ k)) (a, b) = true) := by simp [ha]
      have hbeq : (k == a) = false := beq_eq_false_iff_ne.mpr (Ne.symm ha)
      rw [eraseA, List.filter_cons, if_pos hf]
      simp only [List.lookup, hbeq]
      exact ih

lemma lookup_insertA_self (l : List (String × String)) (k v : String) :
    List.lookup k (insertA l k v) = some v := by
  induction l with
  | nil => simp [insertA, List.lookup]
  | cons p t ih =>
    rcases p with ⟨a, b⟩
    by_cases ha : a = k
    · simp [insertA, ha, List.lookup]
    · have hbeq : (k == a) = false := beq_eq_false_iff_ne.mpr (Ne.symm ha)
      simpa [insertA, ha, List.lookup, hbeq] using ih

lemma insertA_mem (l : List (String × String)) (k v : String) (p : String × String)
    (hp : p ∈ insertA l k v) : p = (k, v) ∨ p ∈ l := by
  induction l with
  | nil => simpa [insertA] using hp
  | cons q t ih =>
    rcases q with ⟨a, b⟩
    by_cases ha : a = k
    · rcases (by simpa [insertA, ha] using hp : p = (k, v) ∨ p ∈ t) with h | h
      · exact .inl h
      · exact .inr (List.mem_cons_of_mem _ h)
    · rcases (by simpa [insertA, ha] using hp : p = (a, b) ∨ p ∈ insertA t k v) with h | h
      · exact .inr (by simp [h])
      · rcases ih h with h' | h'
        · exact .inl h'
        · exact .inr (List.mem_cons_of_mem _ h')

lemma insertA_keys_of_mem (l : List (String × String)) (k v : String)
    (hk : k ∈ l.map Prod.fst) :
    (insertA l k v).map Prod.fst = l.map Prod.fst := by
  induction l with
  | nil => simp at hk
  | cons q t ih =>
    rcases q with ⟨a, b⟩
    by_cases ha : a = k
    · simp [insertA, ha]
    · have hk' : k ∈ t.map Prod.fst := by
        rcases List.mem_cons.mp (by simpa using hk : k ∈ a :: t.map Prod.fst) with h | h
        · exact absurd h.symm ha
        · exact h
      simp [insertA, ha, ih hk']

lemma insertA_keys_of_not_mem (l : List (String × String)) (k v : String)
    (hk : k ∉ l.map Prod.fst) :
    (insertA l k v).map Prod.fst = l.map Prod.fst ++ [k] := by
  induction l with
  | nil => simp [insertA]
  | cons q t ih =>
    rcases q with ⟨a, b⟩
    have ha : a ≠ k := by
      intro h
      exact hk (by simp [h])
    have hk' : k ∉ t.map Prod.fst := fun h => hk (by simp [h])
    simp [insertA, ha, ih hk']

lemma lookup_isSome_iff (l : List (String × String)) (k : String) :
    (List.lookup k l).isSome = true ↔ k ∈ l.map Prod.fst := by
  induction l with
  | nil => simp [List.lookup]
  | cons q t ih =>
    rcases q with ⟨a, b⟩
    by_cases ha : k = a
    · simp [List.lookup, ha]
    · have hbeq : (k == a) = false := beq_eq_false_iff_ne.mpr ha
      rw [List.lookup, hbeq]
      have hmem : (k ∈ (((a, b) :: t).map Prod.fst)) ↔ k ∈ t.map Prod.fst := by
        simp [ha]
      rw [hmem]
      exact ih

/-! ## C9: departure deletes the role mapping -/

/-- C9: when a member departure is processed, the departing id's role
mapping is deleted immediately: afterwards that id holds no role in the
session. -/
theorem unregister_frees_role (r : RoomState) (cid : String) (h : cid ∈ r.clients) :
    List.lookup cid (unregisterClient r cid).1.gameState.playerSymbols = none := by
  unfold unregisterClient
  rw [if_pos h]
  exact lookup_eraseA _ _

/-- C9 witness: a concrete member departure frees its role slot. -/
theorem unregister_frees_role_witness :
    List.lookup "A"
      (unregisterClient ⟨"g", ["A"],
        { NewGameState with playerSymbols := [("A", "X")] }⟩ "A").1.gameState.playerSymbols
      = none :=
  unregister_frees_role _ "A" (by decide)

/-! ## C6: the grace timer is a no-op on a reoccupied room -/

/-- C6: an empty-session grace timer that fires while occupancy is
positive performs no retirement: the occupancy is re-read at fire time, so
the timer emits no deletion request and the registry keeps the session. -/
theorem graceTimer_void_when_occupied (h : HubState) (r : RoomState)
    (hocc : 0 < r.clients.length) :
    timerFire r = none ∧ hubTimerFire h r = h := by
  have hne : ¬ r.clients.isEmpty = true := by
    cases hc : r.clients with
    | nil => rw [hc] at hocc; simp at hocc
    | cons a t => simp [hc]
  have ht : timerFire r = none := by
    unfold timerFire
    rw [if_neg hne]
  exact ⟨ht, by unfold hubTimerFire; rw [ht]⟩

/-- C6 witness: a timer firing on a room one member rejoined is void. -/
theorem graceTimer_void_when_occupied_witness :
    timerFire ⟨"g", ["A"], NewGameState⟩ = none ∧
    hubTimerFire ⟨[], [("g", ⟨"g", ["A"], NewGameState⟩)], 500⟩ ⟨"g", ["A"], NewGameState⟩
      = ⟨[], [("g", ⟨"g", ["A"], NewGameState⟩)], 500⟩ :=
  graceTimer_void_when_occupied _ _ (by decide)

/-! ## C7: session-capacity rejection (spec-modelled guard) -/

/-- C7: when the registry already holds at least the configured maximum of
live sessions, a create request adds no session — the registry state is
unchanged — and the requester alone receives the capacity error; below the
maximum a new session is recorded. -/
theorem createRoom_capacity (h : HubState) (cid newRoomId : String) :
    (h.maxRooms ≤ h.rooms.length →
      (createRoom h cid newRoomId).1 = h ∧
      (createRoom h cid newRoomId).2 = [(cid, Msg.errMsg ErrorCapacity)]) ∧
    (h.rooms.length < h.maxRooms →
      (createRoom h cid newRoomId).1.rooms.length = h.rooms.length + 1) := by
  constructor
  · intro hfull
    unfold createRoom
    rw [if_pos hfull]
    exact ⟨rfl, rfl⟩
  · intro hlt
    unfold createRoom
    rw [if_neg (by omega)]
    simp

/-- C7 witness: a registry at its configured maximum rejects a create
request with the capacity error and keeps its directory unchanged. -/
theorem createRoom_capacity_witness :
    (createRoom ⟨["A"], [("g", newRoom "g")], 1⟩ "A" "h2").1
        = ⟨["A"], [("g", newRoom "g")], 1⟩ ∧
    (createRoom ⟨["A"], [("g", newRoom "g")], 1⟩ "A" "h2").2
        = [("A", Msg.errMsg ErrorCapacity)] :=
  (createRoom_capacity ⟨["A"], [("g", newRoom "g")], 1⟩ "A" "h2").1 (by decide)

/-! ## C8: retirement is idempotent -/

lemma lookup_filter_key_ne {β : Type} (l : List (String × β)) (k : String) :
    List.lookup k (l.filter (fun p => p.1 ≠ k)) = none := by
  induction l with
  | nil => rfl
  | cons p t ih =>
    rcases p with ⟨a, b⟩
    by_cases ha : a = k
    · have hf : ¬((fun p => decide (p.1 ≠ k)) (a, b) = true) := by simp [ha]
      rw [List.filter_cons, if_neg hf]
      exact ih
    · have hf : ((fun p => decide (p.1 ≠ k)) (a, b) = true) := by simp [ha]
      have hbeq : (k == a) = false := beq_eq_false_iff_ne.mpr (Ne.symm ha)
      rw [List.filter_cons, if_pos hf]
      simp only [List.lookup, hbeq]
      exact ih

/-- C8: retiring a session removes it from the directory and signals its
lifecycle stop; retiring an unknown (or already-retired) id is a no-op and
sends no stop signal, so retiring twice equals retiring once. -/
theorem retireSession_idempotent (h : HubState) (roomId : String) :
    List.lookup roomId (deleteRoom h roomId).1.rooms = none ∧
    (List.lookup roomId h.rooms = none → deleteRoom h roomId = (h, false)) ∧
    deleteRoom (deleteRoom h roomId).1 roomId = ((deleteRoom h roomId).1, false) := by
  have key : ∀ (hs : HubState), List.lookup roomId hs.rooms = none →
      deleteRoom hs roomId = (hs, false) := by
    intro hs hnone
    unfold deleteRoom
    rw [hnone]
    simp
  have h1 : List.lookup roomId (deleteRoom h roomId).1.rooms = none := by
    unfold deleteRoom
    by_cases hx : (List.lookup roomId h.rooms).isSome = true
    · rw [if_pos hx]
      exact lookup_filter_key_ne _ _
    · rw [if_neg hx]
      exact Option.not_isSome_iff_eq_none.mp hx
  exact ⟨h1, key h, key _ h1⟩

/-- C8 witness: deleting a concrete room removes it, deleting an unknown
id is a no-op, and a second deletion changes nothing. -/
theorem retireSession_idempotent_witness :
    List.lookup "g" (deleteRoom ⟨[], [("g", newRoom "g")], 500⟩ "g").1.rooms = none ∧
    (List.lookup "g" (⟨[], [("g", newRoom "g")], 500⟩ : HubState).rooms = none →
      deleteRoom ⟨[], [("g", newRoom "g")], 500⟩ "g" = (⟨[], [("g", newRoom "g")], 500⟩, false)) ∧
    deleteRoom (deleteRoom ⟨[], [("g", newRoom "g")], 500⟩ "g").1 "g" =
      ((deleteRoom ⟨[], [("g", newRoom "g")], 500⟩ "g").1, false) :=
  retireSession_idempotent ⟨[], [("g", newRoom "g")], 500⟩ "g"

/-! ## C10: message types outside the spec's closed server-to-client set -/

/-- Closed server-to-client message-type set. Modelled from the spec: the
wire-protocol section lists exactly these server-to-client types. -/
def specServerTypes : List String :=
  ["ROOM_CREATED", "ROOM_JOINED", "PLAYER_JOINED", "GAME_START", "GAME_UPDATE",
   "GAME_OVER", "PLAYER_LEFT", "PLAYER_RECONNECTED", "ROOM_LIST", "ERROR"]

/-- C10: the server emits message types outside the spec's closed
server-to-client set: the first member to register in a session is sent
waiting-for-opponent carrying the session id, its id and its symbol, and
the session's cleanup sends room-closed to every remaining member; neither
type is in the spec's set. -/
theorem undocumented_message_types (id cid : String) (r : RoomState) :
    (registerClient (newRoom id) cid).2 = [(cid, Msg.waitingForOpponent id cid "X")] ∧
    (∀ c ∈ r.clients, (c, Msg.roomClosed) ∈ roomCleanup r) ∧
    (Msg.waitingForOpponent id cid "X").msgType ∉ specServerTypes ∧
    (Msg.roomClosed).msgType ∉ specServerTypes := by
  refine ⟨rfl, ?_, ?_, by decide⟩
  · intro c hc
    exact List.mem_map.mpr ⟨c, hc, rfl⟩
  · show "WAITING_FOR_OPPONENT" ∉ specServerTypes
    decide

/-- C10 witness: concrete session id, first member and remaining members. -/
theorem undocumented_message_types_witness :
    (registerClient (newRoom "w") "c").2 = [("c", Msg.waitingForOpponent "w" "c" "X")] ∧
    (∀ m ∈ (⟨"w", ["a", "b"], NewGameState⟩ : RoomState).clients,
      (m, Msg.roomClosed) ∈ roomCleanup ⟨"w", ["a", "b"], NewGameState⟩) ∧
    (Msg.waitingForOpponent "w" "c" "X").msgType ∉ specServerTypes ∧
    (Msg.roomClosed).msgType ∉ specServerTypes :=
  undocumented_message_types "w" "c" ⟨"w", ["a", "b"], NewGameState⟩

/-! ## C5: a rejected move touches nothing but the requester -/

/-- C5: every rejected move request — unknown role (not-in-game), out of
turn (not-your-turn), or engine-rejected (invalid-move) — sends exactly
one error message to the requester, sends nothing to the other member,
requests no room deletion, and leaves the session state (grid, whose-turn,
terminal flags, role assignments) unchanged. -/
theorem rejectedMove_requester_only (r : RoomState) (cid : String) (row col : Int) :
    (List.lookup cid r.gameState.playerSymbols = none →
      receiveMove r cid row col = (r, [(cid, Msg.errMsg ErrorNotInGame)], false)) ∧
    (∀ s, List.lookup cid r.gameState.playerSymbols = some s →
      r.gameState.currentTurnSymbol ≠ s →
      receiveMove r cid row col = (r, [(cid, Msg.errMsg ErrorNotYourTurn)], false)) ∧
    (∀ s, List.lookup cid r.gameState.playerSymbols = some s →
      r.gameState.currentTurnSymbol = s →
      (ApplyMove r.gameState s row col).2 ≠ none →
      receiveMove r cid row col = (r, [(cid, Msg.errMsg ErrorInvalidMove)], false)) := by
  refine ⟨?_, ?_, ?_⟩
  · intro h
    simp [receiveMove, h]
  · intro s hs ht
    simp [receiveMove, hs, ht]
  · intro s hs ht hrej
    rcases hres : (ApplyMove r.gameState s row col).2 with _ | e
    · exact absurd hres hrej
    · simp [receiveMove, hs, ht, hres]

/-- C5 witness: a move by an id with no role in a concrete session yields
not-in-game to the requester alone with the state unchanged. -/
theorem rejectedMove_requester_only_witness :
    receiveMove ⟨"g", ["A"], { NewGameState with playerSymbols := [("A", "X")] }⟩ "C" 0 0
      = (⟨"g", ["A"], { NewGameState with playerSymbols := [("A", "X")] }⟩,
          [("C", Msg.errMsg ErrorNotInGame)], false) :=
  (rejectedMove_requester_only _ "C" 0 0).1 (by decide)

/-! ## C3: role stability under reconnection

Concrete event chain used as counterexample material: A creates session
"g" (role X), B joins (role O), B's connection terminates, A's connection
terminates, then B rejoins before the grace period retires the session. -/

/-- Session "g" after A registered (role X) and B registered (role O). -/
def roomAB : RoomState := (registerClient (registerClient (newRoom "g") "A").1 "B").1

/-- Session "g" after both members' connections terminated. -/
def roomEmptied : RoomState := (unregisterClient (unregisterClient roomAB "B").1 "A").1

/-- Session "g" after B rejoined the emptied, not-yet-retired session. -/
def roomBRejoin : RoomState := (registerClient roomEmptied "B").1

/-- C3 counterexample: B held role "O" in session "g"; after its
connection terminated it rejoined the same session before retirement and
was assigned "X", not the role it held before. -/
theorem roleStability_counterexample :
    List.lookup "B" roomAB.gameState.playerSymbols = some "O" ∧
    List.lookup "B" roomBRejoin.gameState.playerSymbols = some "X" := by decide

/-- C3 amended: an id that still holds a role (its mapping not yet
deleted) in a session whose two roles are both assigned receives the same
role again on rejoining, and is re-sent room-joined carrying that role;
since a processed departure deletes the mapping, rejoining after the
connection terminated is instead a fresh join. -/
theorem roleStability_amended (r : RoomState) (cid s : String)
    (hs : List.lookup cid r.gameState.playerSymbols = some s)
    (h2 : r.gameState.playerSymbols.length = 2) :
    List.lookup cid (registerClient r cid).1.gameState.playerSymbols = some s ∧
    (cid, Msg.roomJoined r.id cid s (some r.gameState.board)) ∈ (registerClient r cid).2 := by
  simp only [registerClient, hs, h2, Option.isSome_some, Option.getD_some]
  rw [if_pos ⟨trivial, trivial⟩]
  refine ⟨lookup_insertA_self _ _ _, ?_⟩
  simp

/-- C3 witness for the amended claim: B, still holding role "O" in the
two-role session, re-registers and keeps "O". -/
theorem roleStability_amended_witness :
    List.lookup "B" (registerClient roomAB "B").1.gameState.playerSymbols = some "O" ∧
    ("B", Msg.roomJoined roomAB.id "B" "O" (some roomAB.gameState.board))
      ∈ (registerClient roomAB "B").2 :=
  roleStability_amended roomAB "B" "O" (by decide) (by decide)

/-! ## C4: at most two role holders; joining a full session -/

/-- Structural invariant of a session: the member list has no duplicate
ids and at most 2 entries, every role holder is a member, and no id holds
two roles. -/
def RoomInv (r : RoomState) : Prop :=
  r.clients.Nodup ∧ r.clients.length ≤ 2 ∧
  (∀ p ∈ r.gameState.playerSymbols, p.1 ∈ r.clients) ∧
  (r.gameState.playerSymbols.map Prod.fst).Nodup

/-- Session states reachable through the serialized event loop: a fresh
session, a registration forwarded by the hub (which only forwards a join
while occupancy is below 2 — the `CreateRoomChan` registration targets the
fresh empty room and is the same step), a departure, and a move. -/
inductive ReachableRoom : RoomState → Prop where
  | init (id : String) : ReachableRoom (newRoom id)
  | join (r : RoomState) (cid : String) : ReachableRoom r → r.clients.length < 2 →
      ReachableRoom (registerClient r cid).1
  | leave (r : RoomState) (cid : String) : ReachableRoom r →
      ReachableRoom (unregisterClient r cid).1
  | move (r : RoomState) (cid : String) (row col : Int) : ReachableRoom r →
      ReachableRoom (receiveMove r cid row col).1

lemma applyMove_playerSymbols (gs : GameState) (sym : String) (row col : Int) :
    ((ApplyMove gs sym row col).1).playerSymbols = gs.playerSymbols := by
  simp only [ApplyMove]
  split_ifs <;> rfl

lemma receiveMove_shape (r : RoomState) (cid : String) (row col : Int) :
    (receiveMove r cid row col).1.clients = r.clients ∧
    (receiveMove r cid row col).1.gameState.playerSymbols = r.gameState.playerSymbols := by
  rcases hl : List.lookup cid r.gameState.playerSymbols with _ | s
  · simp [receiveMove, hl]
  · by_cases ht : r.gameState.currentTurnSymbol ≠ s
    · simp [receiveMove, hl, ht]
    · rcases hres : (ApplyMove r.gameState s row col).2 with _ | e
      · by_cases hgo : ((ApplyMove r.gameState s row col).1).isGameOver = true
        · simp [receiveMove, hl, ht, hres, hgo, applyMove_playerSymbols]
        · simp [receiveMove, hl, ht, hres, hgo, applyMove_playerSymbols]
      · simp [receiveMove, hl, ht, hres]

lemma roomInv_of_eq (r r' : RoomState) (hc : r'.clients = r.clients)
    (hp : r'.gameState.playerSymbols = r.gameState.playerSymbols)
    (h : RoomInv r) : RoomInv r' := by
  rw [RoomInv, hc, hp]
  exact h

lemma receiveMove_inv (r : RoomState) (cid : String) (row col : Int)
    (h : RoomInv r) : RoomInv (receiveMove r cid row col).1 :=
  roomInv_of_eq _ _ (receiveMove_shape r cid row col).1
    (receiveMove_shape r cid row col).2 h

lemma unregister_inv (r : RoomState) (cid : String) (h : RoomInv r) :
    RoomInv (unregisterClient r cid).1 := by
  obtain ⟨hnd, hlen, hsub, hkeys⟩ := h
  unfold unregisterClient
  by_cases hc : cid ∈ r.clients
  · rw [if_pos hc]
    refine ⟨hnd.erase cid, ?_, ?_, ?_⟩
    · exact (List.erase_sublist cid r.clients).length_le.trans hlen
    · intro p hp
      have hp' := List.mem_filter.mp hp
      have hne : p.1 ≠ cid := by simpa using hp'.2
      exact (List.mem_erase_of_ne hne).mpr (hsub p hp'.1)
    · exact hkeys.sublist ((List.filter_sublist _).map Prod.fst)
  · rw [if_neg hc]
    exact ⟨hnd, hlen, hsub, hkeys⟩

lemma inv_insertA_keys (ps : List (String × String)) (clients' : List String)
    (cid v : String) (hsub : ∀ p ∈ ps, p.1 ∈ clients')
    (hkeys : (ps.map Prod.fst).Nodup) (hcid : cid ∈ clients') :
    (∀ p ∈ insertA ps cid v, p.1 ∈ clients') ∧
    ((insertA ps cid v).map Prod.fst).Nodup := by
  constructor
  · intro p hp
    rcases insertA_mem _ _ _ _ hp with h | h
    · rw [h]
      exact hcid
    · exact hsub p h
  · by_cases hm : cid ∈ ps.map Prod.fst
    · rw [insertA_keys_of_mem _ _ _ hm]
      exact hkeys
    · rw [insertA_keys_of_not_mem _ _ _ hm]
      simp [List.nodup_append, hkeys, hm]

lemma register_inv (r : RoomState) (cid : String) (h : RoomInv r) :
    RoomInv (registerClient r cid).1 := by
  obtain ⟨hnd, hlen, hsub, hkeys⟩ := h
  rcases hlook : List.lookup cid r.gameState.playerSymbols with _ | s
  case some =>
    -- the id already holds a role, hence (invariant) is already a member
    have hmem : cid ∈ r.gameState.playerSymbols.map Prod.fst :=
      (lookup_isSome_iff _ _).mp (by rw [hlook]; rfl)
    obtain ⟨p, hp, hfst⟩ := List.mem_map.mp hmem
    have hc : cid ∈ r.clients := hfst ▸ hsub p hp
    have hins := inv_insertA_keys r.gameState.playerSymbols r.clients cid s hsub hkeys hc
    simp only [registerClient, hlook, Option.isSome_some, Option.getD_some, if_pos hc,
      eq_self_iff_true, ite_true, true_and]
    by_cases hl2 : r.gameState.playerSymbols.length = 2
    · rw [if_pos hl2]
      exact ⟨hnd, hlen, hins.1, hins.2⟩
    · rw [if_neg hl2]
      split_ifs with hgt h1 hq2
      · exact absurd hgt (by omega)
      · exact ⟨hnd, hlen, by simp [hc], by simp⟩
      · rcases List.find? (fun c => c ≠ cid) r.clients with _ | fp
        · exact ⟨hnd, hlen, hins.1, hins.2⟩
        · exact ⟨hnd, hlen,
            (inv_insertA_keys _ r.clients cid _ hins.1 hins.2 hc).1,
            (inv_insertA_keys _ r.clients cid _ hins.1 hins.2 hc).2⟩
      · exact ⟨hnd, hlen, hins.1, hins.2⟩
  case none =>
    by_cases hc : cid ∈ r.clients
    · simp only [registerClient, hlook, Option.isSome_none, Option.getD_none, if_pos hc,
        Bool.false_eq_true, false_and, if_false, ite_false]
      split_ifs with hgt h1 hq2
      · exact absurd hgt (by omega)
      · exact ⟨hnd, hlen, by simp [hc], by simp⟩
      · rcases List.find? (fun c => c ≠ cid) r.clients with _ | fp
        · exact ⟨hnd, hlen, hsub, hkeys⟩
        · exact ⟨hnd, hlen,
            (inv_insertA_keys _ r.clients cid _ hsub hkeys hc).1,
            (inv_insertA_keys _ r.clients cid _ hsub hkeys hc).2⟩
      · exact ⟨hnd, hlen, hsub, hkeys⟩
    · -- a genuinely new id is appended
      have hnd' : (r.clients ++ [cid]).Nodup := by
        simp [List.nodup_append, hnd, hc]
      have hsub' : ∀ p ∈ r.gameState.playerSymbols, p.1 ∈ r.clients ++ [cid] := by
        intro p hp
        exact List.mem_append_left _ (hsub p hp)
      have hcid' : cid ∈ r.clients ++ [cid] := by simp
      have hle : ¬ 2 < (r.clients ++ [cid]).length → (r.clients ++ [cid]).length ≤ 2 := by
        intro hh
        simp only [List.length_append, List.length_cons, List.length_nil] at hh ⊢
        omega
      simp only [registerClient, hlook, Option.isSome_none, Option.getD_none, if_neg hc,
        Bool.false_eq_true, false_and, if_false, ite_false]
      split_ifs with hgt h1 hq2
      · -- a third concurrent member: the room rejects and removes it again
        have herase : (r.clients ++ [cid]).erase cid = r.clients := by
          rw [List.erase_append_right _ hc]
          simp
        rw [herase]
        exact ⟨hnd, hlen, hsub, hkeys⟩
      · exact ⟨hnd', hle hgt, by simp, by simp⟩
      · rcases List.find? (fun c => c ≠ cid) (r.clients ++ [cid]) with _ | fp
        · exact ⟨hnd', hle hgt, hsub', hkeys⟩
        · exact ⟨hnd', hle hgt,
            (inv_insertA_keys _ _ cid _ hsub' hkeys hcid').1,
            (inv_insertA_keys _ _ cid _ hsub' hkeys hcid').2⟩
      · exact ⟨hnd', hle hgt, hsub', hkeys⟩

lemma reachable_inv (r : RoomState) (h : ReachableRoom r) : RoomInv r := by
  induction h with
  | init id => exact ⟨by simp [newRoom], by simp [newRoom], by simp [newRoom, NewGameState], by simp [newRoom, NewGameState]⟩
  | join r cid hr hg ih => exact register_inv r cid ih
  | leave r cid hr ih => exact unregister_inv r cid ih
  | move r cid row col hr ih => exact receiveMove_inv r cid row col ih

lemma inv_ps_le_two (r : RoomState) (h : RoomInv r) :
    r.gameState.playerSymbols.length ≤ 2 := by
  obtain ⟨hnd, hlen, hsub, hkeys⟩ := h
  have hsub' : (r.gameState.playerSymbols.map Prod.fst) ⊆ r.clients := by
    intro k hk
    obtain ⟨p, hp, hfst⟩ := List.mem_map.mp hk
    exact hfst ▸ hsub p hp
  calc r.gameState.playerSymbols.length
      = (r.gameState.playerSymbols.map Prod.fst).length := (List.length_map _ _).symm
    _ ≤ r.clients.length := (hkeys.subperm hsub').length_le
    _ ≤ 2 := hlen

/-- Registry snapshot containing the two-member session `roomAB`. -/
def hubAB : HubState := ⟨["A", "B"], [("g", roomAB)], 500⟩

/-- C4 counterexample: session "g" holds the 2 distinct occupants A and B,
and A is one of the two role holders (role X); yet A's join attempt is
rejected with the room-full error instead of being re-admitted, and the
registry is unchanged. -/
theorem roomFull_readmission_counterexample :
    roomAB.clients = ["A", "B"] ∧
    List.lookup "A" roomAB.gameState.playerSymbols = some "X" ∧
    joinRoom hubAB "g" "A" = (hubAB, [("A", Msg.errMsg ErrorRoomFull)]) := by decide

/-- C4 amended: in every reachable session state at most 2 distinct
connection ids hold a role simultaneously, and a join attempt while the
session already has 2 occupants is rejected with the room-full error and
changes nothing — regardless of whether the joining id is one of the two
existing role holders (an existing role holder is re-admitted only when it
is no longer among the occupants). -/
theorem roomCapacity_amended (r : RoomState) (h : HubState) (roomId cid : String) :
    (ReachableRoom r → r.gameState.playerSymbols.length ≤ 2) ∧
    (List.lookup roomId h.rooms = some r → 2 ≤ r.clients.length →
      joinRoom h roomId cid = (h, [(cid, Msg.errMsg ErrorRoomFull)])) := by
  constructor
  · intro hr
    exact inv_ps_le_two r (reachable_inv r hr)
  · intro hlk hlen
    simp [joinRoom, hlk, hlen]

lemma reachable_roomAB : ReachableRoom roomAB :=
  .join _ "B" (.join _ "A" (.init "g") (by decide)) (by decide)

/-- C4 witness: the concrete two-member session satisfies the role bound,
and a third id's join against it is rejected with room-full. -/
theorem roomCapacity_amended_witness :
    roomAB.gameState.playerSymbols.length ≤ 2 ∧
    joinRoom hubAB "g" "C" = (hubAB, [("C", Msg.errMsg ErrorRoomFull)]) :=
  ⟨(roomCapacity_amended roomAB hubAB "g" "C").1 reachable_roomAB,
    (roomCapacity_amended roomAB hubAB "g" "C").2 (by decide) (by decide)⟩

end TicTacToe
